import Mathlib

/-!
Shallow embedding of the lead-enrichment pipeline
(`snapshot_monitor.py`, `GS_enricher_main.py`, `config_temp.py`):
the value formatter, the column schema resolution, the row matcher,
the snapshot state sets and polling loops, the merge retry logic and
the lead scorer, together with theorems settling the specified
properties of each.
-/

namespace GSEnrich

/-- JSON-like values as produced by `json.load` on snapshot payload files;
this is the data `snapshot_monitor.py` traverses (numbers modelled as
integers, which suffices for the structural formatting logic). -/
inductive Value where
  | null : Value
  | bool (b : Bool) : Value
  | int (n : Int) : Value
  | str (s : String) : Value
  | list (items : List Value) : Value
  | dict (entries : List (String × Value)) : Value

mutual

/-- Python `repr()` restricted to JSON-like values: `None`, `True`/`False`,
integers, quoted strings, `[...]` lists and `\x7b...\x7d` dicts. Used by
`str()` on containers. -/
def pyRepr : Value → String
  | .null => "None"
  | .bool true => "True"
  | .bool false => "False"
  | .int n => toString n
  | .str s => "'" ++ s ++ "'"
  | .list items => "[" ++ String.intercalate ", " (pyReprList items) ++ "]"
  | .dict entries => "\x7b" ++ String.intercalate ", " (pyReprEntries entries) ++ "\x7d"

/-- `repr` of each element of a Python list. -/
def pyReprList : List Value → List String
  | [] => []
  | v :: vs => pyRepr v :: pyReprList vs

/-- `repr` of each `key: value` entry of a Python dict. -/
def pyReprEntries : List (String × Value) → List String
  | [] => []
  | (k, v) :: es => ("'" ++ k ++ "': " ++ pyRepr v) :: pyReprEntries es

end

/-- Python `str()` on JSON-like values: a string is returned unchanged,
everything else falls back to `repr`. -/
def pyStr : Value → String
  | .str s => s
  | v => pyRepr v

mutual

/-- `format_value` from `snapshot_monitor.py` (lines 53-81): `None` becomes
the empty string; a list renders each element (dict elements as
`"k1: v1 | k2: v2"`, other elements via `str()`) joined with `", "`; a dict
renders its entries joined with `" | "`; any scalar is rendered via `str()`.
Inside a dict entry only list/dict values recurse, scalars go through
`str()`. -/
def format_value : Value → String
  | .null => ""
  | .list items => String.intercalate ", " (formatListItems items)
  | .dict entries => String.intercalate " | " (formatDictEntries entries)
  | v => pyStr v

/-- The list branch of `format_value`: dict items are rendered entry-wise,
other items via `str()`. -/
def formatListItems : List Value → List String
  | [] => []
  | .dict entries :: rest =>
      String.intercalate " | " (formatDictEntries entries) :: formatListItems rest
  | v :: rest => pyStr v :: formatListItems rest

/-- The dict-entry loop of `format_value`: a nested list or dict value is
recursively formatted, any other value is rendered via `str()`, and the
entry becomes `"k: v"`. -/
def formatDictEntries : List (String × Value) → List String
  | [] => []
  | (k, v) :: rest =>
      (match v with
       | .list items => k ++ ": " ++ format_value (.list items)
       | .dict entries => k ++ ": " ++ format_value (.dict entries)
       | v' => k ++ ": " ++ pyStr v') :: formatDictEntries rest

end

/-- `format_company_value` from `snapshot_monitor.py` (lines 304-332) is a
verbatim textual duplicate of `format_value`; it is embedded as the same
function. -/
def format_company_value : Value → String := format_value

/-- Python `str.strip()` on a character list: whitespace removed from both
ends. -/
def pyStrip (cs : List Char) : List Char :=
  ((cs.dropWhile Char.isWhitespace).reverse.dropWhile Char.isWhitespace).reverse

/-- Python `str.strip()` at the `String` level. -/
def pyStripStr (s : String) : String :=
  String.mk (pyStrip s.toList)

/-- Digits-to-number accumulator: the numeric value of a run of decimal
digit characters. -/
def digitsVal (ds : List Char) : Nat :=
  ds.foldl (fun a c => 10 * a + (c.toNat - 48)) 0

/-- The outcome of parsing a decimal float literal, kept in integer parts:
sign, integer-part value, fraction value and fraction length, exponent sign
and exponent value. -/
structure ParsedFloat where
  neg : Bool
  ip : Nat
  fracVal : Nat
  fracLen : Nat
  expNeg : Bool
  exp : Nat
deriving DecidableEq

/-- Continue a digit run in which single underscores may separate digits
(PEP 515); called right after a digit was consumed. Returns the remaining
digits of the run (underscores removed) and the rest of the input, or
`none` when an underscore is not followed by a digit (Python raises
`ValueError` on such literals). -/
def scanDigitsGo : List Char → Option (List Char × List Char)
  | '_' :: c :: rest =>
      if c.isDigit then (scanDigitsGo rest).map (fun (ds, r) => (c :: ds, r))
      else none
  | ['_'] => none
  | c :: rest =>
      if c.isDigit then (scanDigitsGo rest).map (fun (ds, r) => (c :: ds, r))
      else some ([], c :: rest)
  | [] => some ([], [])

/-- A maximal (possibly empty) run of digits with single underscores
between digits, as Python's float grammar accepts; the run may not start
with an underscore. -/
def scanDigits : List Char → Option (List Char × List Char)
  | c :: rest =>
      if c.isDigit then (scanDigitsGo rest).map (fun (ds, r) => (c :: ds, r))
      else some ([], c :: rest)
  | [] => some ([], [])

/-- Parse a trailing exponent part `e[+|-]digits` (case-insensitive `e`,
underscores between digits allowed), returning its sign and magnitude;
`none` when malformed or when anything follows it. -/
def parseExp : List Char → Option (Bool × Nat)
  | 'e' :: rest | 'E' :: rest =>
      let (neg, rest2) :=
        match rest with
        | '+' :: r => (false, r)
        | '-' :: r => (true, r)
        | r => (false, r)
      match scanDigits rest2 with
      | none => none
      | some (ds, rest3) =>
          if ds.isEmpty || !rest3.isEmpty then none else some (neg, digitsVal ds)
  | _ => none

/-- Parse an unsigned decimal literal `digits[.digits][exp]` or
`.digits[exp]` (underscores between digits allowed); the sign is filled in
by the caller. -/
def parseNumber (cs : List Char) : Option ParsedFloat :=
  match scanDigits cs with
  | none => none
  | some (ip, rest) =>
      match rest with
      | '.' :: rest2 =>
          match scanDigits rest2 with
          | none => none
          | some (fp, rest3) =>
              if ip.isEmpty && fp.isEmpty then none
              else if rest3.isEmpty then
                some ⟨false, digitsVal ip, digitsVal fp, fp.length, false, 0⟩
              else
                (parseExp rest3).map fun (en, e) =>
                  ⟨false, digitsVal ip, digitsVal fp, fp.length, en, e⟩
      | _ =>
          if ip.isEmpty then none
          else if rest.isEmpty then
            some ⟨false, digitsVal ip, 0, 0, false, 0⟩
          else
            (parseExp rest).map fun (en, e) => ⟨false, digitsVal ip, 0, 0, en, e⟩

/-- Case-insensitive comparison of an input against a lowercase pattern
(only ASCII letters occur in the float keywords). -/
def eqCI : List Char → List Char → Bool
  | [], [] => true
  | c :: cs, p :: ps => (c == p || (c.toNat + 32 == p.toNat)) && eqCI cs ps
  | _, _ => false

/-- A successfully parsed Python float literal, kept syntactic: `nan`,
signed infinity, or a decimal number. -/
inductive FloatLit where
  | nan
  | inf (neg : Bool)
  | num (p : ParsedFloat)
deriving DecidableEq

/-- The body of `float()` after the optional sign: the case-insensitive
keywords `inf`/`infinity`/`nan` (the sign of a nan is irrelevant to its
value), or a decimal literal. -/
def parseUnsignedLit (neg : Bool) (cs : List Char) : Option FloatLit :=
  if eqCI cs "inf".toList || eqCI cs "infinity".toList then some (.inf neg)
  else if eqCI cs "nan".toList then some .nan
  else (parseNumber cs).map fun p => .num { p with neg := neg }

/-- Syntactic model of Python `float()` on strings: surrounding whitespace
is ignored, then an optional sign followed by `inf`/`infinity`/`nan`
(case-insensitive) or a decimal mantissa with optional fraction and
exponent, with single underscores allowed between digits; anything else is
a `ValueError` (`none`). -/
def pyFloatParse (s : String) : Option FloatLit :=
  match pyStrip s.toList with
  | '+' :: rest => parseUnsignedLit false rest
  | '-' :: rest => parseUnsignedLit true rest
  | cs => parseUnsignedLit false cs

/-- The rational value of a parsed decimal float literal. -/
def ratOfParsed (p : ParsedFloat) : ℚ :=
  let mant : ℚ := (p.ip : ℚ) + (p.fracVal : ℚ) / 10 ^ p.fracLen
  let scaled : ℚ := if p.expNeg then mant / 10 ^ p.exp else mant * 10 ^ p.exp
  if p.neg then -scaled else scaled

/-- The value domain of Python floats as far as the scorer observes it:
NaN, the two infinities, and finite values (modelled as rationals). -/
inductive PyFloat where
  | nan
  | pinf
  | ninf
  | finite (q : ℚ)
deriving DecidableEq

/-- The value of a parsed float literal. -/
def pyFloatVal : FloatLit → PyFloat
  | .nan => .nan
  | .inf false => .pinf
  | .inf true => .ninf
  | .num p => .finite (ratOfParsed p)

/-- Python's `>` on floats: every comparison involving NaN is false. -/
def pyGt : PyFloat → PyFloat → Bool
  | .nan, _ => false
  | _, .nan => false
  | .pinf, .pinf => false
  | .pinf, _ => true
  | .ninf, _ => false
  | .finite _, .pinf => false
  | .finite _, .ninf => true
  | .finite a, .finite b => decide (b < a)

/-- Python `max(a, b)`: `b` when `b > a`, else `a` — so `max(nan, x)` is
`nan`. -/
def pyMax (a b : PyFloat) : PyFloat :=
  if pyGt b a then b else a

/-- Python `min(a, b)`: `b` when `b < a`, else `a` — so `min(nan, x)` is
`nan`. -/
def pyMin (a b : PyFloat) : PyFloat :=
  if pyGt a b then b else a

/-- The value is a finite number lying in `[0, 10]`. -/
def isFiniteIn0to10 : PyFloat → Prop
  | .finite q => 0 ≤ q ∧ q ≤ 10
  | _ => False

instance : (x : PyFloat) → Decidable (isFiniteIn0to10 x)
  | .finite q => inferInstanceAs (Decidable (0 ≤ q ∧ q ≤ 10))
  | .nan => inferInstanceAs (Decidable False)
  | .pinf => inferInstanceAs (Decidable False)
  | .ninf => inferInstanceAs (Decidable False)

/-- The behaviour of the external completion service on one call: either a
reply text or a raised exception. -/
inductive ServiceOutcome where
  | reply (text : String)
  | raised (msg : String)

/-- `LEAD_SCORING['fields']` from `config_temp.py`. -/
def LEAD_SCORING_fields : List String :=
  ["position", "about", "enriched_website", "enriched_country_codes",
   "enriched_unformatted_about", "enriched_crunchbase_url"]

/-- `row_data.get(field, '')`: dictionary lookup with empty-string default. -/
def lookupOrEmpty (row : List (String × String)) (k : String) : String :=
  match row.lookup k with
  | some v => v
  | none => ""

/-- The rubric prompt built by `score_lead` from `LEAD_SCORING['prompt']`
with the six field values substituted. -/
def scorePrompt (row : List (String × String)) : String :=
  "Analyze the following company information and determine if the company is likely to require multilingual translation services. \nAnd if the person is the right person to approach for cold email. Score from 0-10, 10 being highest match.\n\nUse the following fields to make your assessment:\n- Position: "
    ++ lookupOrEmpty row "position"
    ++ "\n- About: " ++ lookupOrEmpty row "about"
    ++ "\n- Website: " ++ lookupOrEmpty row "enriched_website"
    ++ "\n- Country Codes: " ++ lookupOrEmpty row "enriched_country_codes"
    ++ "\n- Company About: " ++ lookupOrEmpty row "enriched_unformatted_about"
    ++ "\n- Crunchbase URL: " ++ lookupOrEmpty row "enriched_crunchbase_url"
    ++ "\n\nReturn ONLY a single number between 0-10 as your response, nothing else."

/-- `score_lead` from `snapshot_monitor.py` (lines 810-852): builds the
rubric prompt, calls the completion service, strips the reply, parses it as
a float and clamps via `min(max(score, 0), 10)`; a parse failure yields 0,
and any exception raised anywhere in the body (completion call included) is
caught and also yields 0. -/
def score_lead (row_data : List (String × String)) (svc : ServiceOutcome) :
    PyFloat :=
  let _prompt := scorePrompt row_data
  match svc with
  | .raised _ => .finite 0
  | .reply content =>
      let score := pyStripStr content
      match pyFloatParse score with
      | some lit => pyMin (pyMax (pyFloatVal lit) (.finite 0)) (.finite 10)
      | none => .finite 0

/-! ### Python string primitives used by the matcher and the state tracker -/

/-- Python `s.split(sep)[0]` for a single-character separator: the prefix
before the first occurrence of `sep`. -/
def takeBeforeChar (sep : Char) (cs : List Char) : List Char :=
  cs.takeWhile (fun c => c ≠ sep)

/-- Python `s.rstrip('/')`: all trailing slashes removed. -/
def rstripSlashes (cs : List Char) : List Char :=
  (cs.reverse.dropWhile (fun c => c = '/')).reverse

/-- URL normalisation used throughout the code:
`url.split('?')[0].rstrip('/')`. -/
def normalize_company_url (s : String) : String :=
  String.mk (rstripSlashes (takeBeforeChar '?' s.toList))

/-- Python `s.split(sep)` for a single-character separator. -/
def splitOnChar (sep : Char) (cs : List Char) : List (List Char) :=
  cs.foldr
    (fun c acc =>
      if c = sep then [] :: acc
      else
        match acc with
        | g :: gs => (c :: g) :: gs
        | [] => [[c]])
    [[]]

/-- Fuel-driven worker for Python `str.replace` (left-to-right,
non-overlapping); the fuel bounds the number of characters consumed. -/
def replaceAllGo (pat rep : List Char) : Nat → List Char → List Char
  | 0, cs => cs
  | _ + 1, [] => []
  | fuel + 1, c :: rest =>
      if pat.isPrefixOf (c :: rest) && !pat.isEmpty then
        rep ++ replaceAllGo pat rep fuel ((c :: rest).drop pat.length)
      else
        c :: replaceAllGo pat rep fuel rest

/-- Python `s.replace(pat, rep)` for a non-empty pattern: every
left-to-right non-overlapping occurrence replaced. -/
def pyReplace (s pat rep : String) : String :=
  String.mk (replaceAllGo pat.toList rep.toList s.toList.length s.toList)

/-- Python `s.startswith(pre)`. -/
def pyStartsWith (s pre : String) : Bool :=
  pre.toList.isPrefixOf s.toList

/-- Python `s.endswith(suf)`. -/
def pyEndsWith (s suf : String) : Bool :=
  suf.toList.isSuffixOf s.toList

/-! ### Snapshot state sets and their persist order (C1) -/

/-- The two persisted job-id sets of the state tracker:
`processed_*_snapshots.json` and `updated_*_snapshots.json`, each stored as
a JSON array of ids. -/
structure SnapState where
  processed : List String
  updated : List String
deriving DecidableEq

/-- The persisted effect of one whole merge pass
(`update_google_sheet`, lines 489-499): when the pass completes without an
exception, the snapshot id is added to the `updated` set and saved; a
caught exception leaves the persisted sets unchanged (the function logs and
returns). -/
def mergePersist (s : SnapState) (j : String) (mergeOk : Bool) : SnapState :=
  if mergeOk then { s with updated := s.updated.insert j } else s

/-- The persisted effect of the step after `process_snapshot_file` returns
(`process_profile_snapshots` lines 734-736, `process_company_snapshots`
lines 796-798): the id is added to the `processed` set and saved. -/
def processedPersist (s : SnapState) (j : String) : SnapState :=
  { s with processed := s.processed.insert j }

/-- The complete persisted-state effect of handling one downloaded
snapshot: first the merge pass (which on success persists `updated`), then
the `processed` save. -/
def handleSnapshot (s : SnapState) (j : String) (mergeOk : Bool) : SnapState :=
  processedPersist (mergePersist s j mergeOk) j

/-- The invariant claimed for the persisted sets: every id in `updated` is
in `processed`. -/
def updatedSubProcessed (s : SnapState) : Prop :=
  ∀ x ∈ s.updated, x ∈ s.processed

instance (s : SnapState) : Decidable (updatedSubProcessed s) :=
  List.decidableBAll _ _

/-! ### Quota retry skeleton of the sheet merger (C5) -/

/-- The outcome of one whole attempt of a sheet-updating call: it either
completes, raises an exception whose text contains "Quota exceeded", or
raises any other exception. -/
inductive AttemptOutcome where
  | success
  | quotaError
  | otherError
deriving DecidableEq

/-- The retry skeleton of `update_google_sheet` (lines 494-499) as a
function of the sequence of outcomes of successive whole-call attempts:
a completed attempt marks the snapshot updated; a quota error sleeps 60
seconds and recursively re-invokes the whole call; any other error logs and
returns without raising. Returns (attempts made, seconds slept in quota
waits, whether the snapshot was marked updated); an exhausted oracle gives
`(0, 0, false)`. -/
def update_sheet_retry : List AttemptOutcome → Nat × Nat × Bool
  | [] => (0, 0, false)
  | .success :: _ => (1, 0, true)
  | .otherError :: _ => (1, 0, false)
  | .quotaError :: rest =>
      let (n, w, u) := update_sheet_retry rest
      (n + 1, w + 60, u)

/-! ### The snapshot polling loop (C3) -/

/-- One job record as returned by the snapshot listing; `id` is `none` when
the `"id"` key is absent (`snapshot.get("id")`). -/
structure JobRecord where
  id : Option String
  status : String
deriving DecidableEq

/-- `[s for s in snapshots if s.get("id") not in processed_snapshots]`:
a record with a missing id is never "processed". -/
def newSnapshots (snaps : List JobRecord) (processed : List String) : List JobRecord :=
  snaps.filter fun s =>
    match s.id with
    | none => true
    | some i => !processed.contains i

/-- The running-status filter of the loop body. -/
def runningOf (l : List JobRecord) : List JobRecord :=
  l.filter (fun s => s.status == "running")

/-- The ready-status filter of the loop body. -/
def readyOf (l : List JobRecord) : List JobRecord :=
  l.filter (fun s => s.status == "ready")

/-- The download-and-process pass over the ready snapshots: records with a
missing or empty id are skipped; a successful download adds the id to the
`processed` set (the merge itself swallows its errors and does not affect
this set). `dlOk` gives the download outcome per id. -/
def processReady (dlOk : String → Bool) : List JobRecord → List String → List String
  | [], processed => processed
  | s :: rest, processed =>
      match s.id with
      | none => processReady dlOk rest processed
      | some i =>
          if i = "" then processReady dlOk rest processed
          else if dlOk i then processReady dlOk rest (processed.insert i)
          else processReady dlOk rest processed

/-- The result of one iteration of the polling loop: `halt` leaves the
`while True` via `break`, `again` sleeps 30 seconds and re-polls. -/
inductive PollStep where
  | halt (processed : List String)
  | again (processed : List String)
deriving DecidableEq

/-- One iteration of the polling loop of `process_profile_snapshots`
(lines 694-746; `process_company_snapshots` lines 756-808 is structurally
identical): an empty listing, a listing with no new ids, or one with no new
ready snapshots each `continue`; otherwise the ready snapshots are
downloaded and processed, and the loop breaks only when no new snapshot has
status `running`. -/
def pollIteration (snaps : List JobRecord) (dlOk : String → Bool)
    (processed : List String) : PollStep :=
  if snaps.isEmpty then .again processed
  else
    let newS := newSnapshots snaps processed
    if newS.isEmpty then .again processed
    else
      let ready := readyOf newS
      if ready.isEmpty then .again processed
      else
        let processed' := processReady dlOk ready processed
        if (runningOf newS).isEmpty then .halt processed' else .again processed'

/-- The polling loop run for `fuel` iterations against a fixed listing
result: `some` is the processed set at exit, `none` means the loop was
still going after `fuel` iterations. -/
def pollLoop (fuel : Nat) (snaps : List JobRecord) (dlOk : String → Bool)
    (processed : List String) : Option (List String) :=
  match fuel with
  | 0 => none
  | n + 1 =>
      match pollIteration snaps dlOk processed with
      | .halt p => some p
      | .again p => pollLoop n snaps dlOk p

/-- Every listed job carries an id that is already in the `processed`
set. -/
def allProcessed (snaps : List JobRecord) (processed : List String) : Bool :=
  snaps.all fun s =>
    match s.id with
    | none => false
    | some i => processed.contains i

/-! ### The entry-point step sequence and the pending-updates pass (C2) -/

/-- The successive pipeline stages, in the roles the repository's functions
play; `pendingUpdatesPass` stands for a call of
`process_pending_updates`. -/
inductive PipelineStep where
  | readProfileLinks
  | submitProfiles
  | pollProfileSnapshots
  | readCompanyLinks
  | submitCompanies
  | pollCompanySnapshots
  | scoreLeads
  | pendingUpdatesPass
deriving DecidableEq

/-- The stage sequence executed by `main()` in `GS_enricher_main.py`
(lines 244-284): read profile links, submit them, poll profile snapshots,
read company links, then (only when company links were found) submit them
and poll company snapshots, and finally score leads. -/
def mainSteps (companyLinksFound : Bool) : List PipelineStep :=
  [.readProfileLinks, .submitProfiles, .pollProfileSnapshots, .readCompanyLinks] ++
    (if companyLinksFound then [.submitCompanies, .pollCompanySnapshots] else []) ++
    [.scoreLeads]

/-- `filename.replace('.json', '')`: the snapshot id of a payload file
name. -/
def snapshotIdOfFile (filename : String) : String :=
  pyReplace filename ".json" ""

/-- The file selection of `process_pending_updates` (lines 585-618): from
both snapshot directories, every `.json` file whose id is in the *profile*
`processed` set and not in the *profile* `updated` set (the function loads
only the profile sets, for the company directory too), joined with its
directory. -/
def pendingSnapshots (profileFiles companyFiles processed updated : List String) :
    List String :=
  (profileFiles.filter fun f =>
      pyEndsWith f ".json" && processed.contains (snapshotIdOfFile f) &&
        !updated.contains (snapshotIdOfFile f)).map
    (fun f => "profile_snapshots/" ++ f) ++
  (companyFiles.filter fun f =>
      pyEndsWith f ".json" && processed.contains (snapshotIdOfFile f) &&
        !updated.contains (snapshotIdOfFile f)).map
    (fun f => "company_snapshots/" ++ f)

/-! ### Field preparation of the sheet merger (C4) -/

/-- `get_column_order()` (lines 83-124): the fixed priority table for
profile fields. -/
def get_column_order : List (String × Nat) :=
  [("name", 1), ("position", 2), ("city", 3), ("country_code", 4),
   ("current_company_company_id", 5), ("current_company", 6), ("about", 7),
   ("experience", 8),
   ("company", 100), ("company_size", 101), ("company_industry", 102),
   ("company_website", 103), ("company_description", 104),
   ("company_founded", 105), ("company_specialties", 106),
   ("headline", 200), ("summary", 201), ("skills", 202), ("education", 203),
   ("languages", 204), ("certifications", 205),
   ("volunteer_experience", 206), ("recommendations", 207),
   ("connections", 208),
   ("email", 300), ("phone", 301), ("twitter", 302), ("website", 303),
   ("other", 1000)]

/-- `get_company_column_order()` (lines 270-302): the fixed priority table
for company fields. -/
def get_company_column_order : List (String × Nat) :=
  [("name", 1), ("country_code", 2), ("locations", 3), ("followers", 4),
   ("employees_in_linkedin", 5), ("about", 6), ("company_size", 7),
   ("organization_type", 8), ("industries", 9), ("website", 10),
   ("crunchbase_url", 11), ("founded", 12), ("company_id", 13),
   ("headquarters", 14), ("slogan", 15), ("description", 16),
   ("website_simplified", 17),
   ("employees", 100), ("similar", 101), ("updates", 102), ("funding", 103),
   ("investors", 104), ("formatted_locations", 105),
   ("other", 1000)]

/-- The keys skipped by the merge loop of `update_google_sheet`
(line 421): `['input', 'url', 'similar_profiles', 'people_also_viewed']`. -/
def excluded_update_keys : List String :=
  ["input", "url", "similar_profiles", "people_also_viewed"]

/-- Insert into a priority-sorted list after all entries of smaller or
equal priority (the stable order Python's `sorted` produces). -/
def insertByPriority (x : String × Nat × String) :
    List (String × Nat × String) → List (String × Nat × String)
  | [] => [x]
  | y :: ys => if y.2.1 ≤ x.2.1 then y :: insertByPriority x ys else x :: y :: ys

/-- `sorted(ordered_fields.items(), key=priority)` as insertion sort. -/
def sortByPriority : List (String × Nat × String) → List (String × Nat × String)
  | [] => []
  | x :: xs => insertByPriority x (sortByPriority xs)

/-- The classification loop of `update_google_sheet` (lines 419-435): each
record entry in encounter order is skipped when its key is excluded,
otherwise its value is formatted, the key is prefixed with `enriched_` for
companies, and the pair is put into the priority-table group (with its
priority) or the other-fields group. (Record keys come from a JSON object
and are distinct.) -/
def classifyUpdateFields (isCompany : Bool) :
    List (String × Value) → List (String × Nat × String) × List (String × String)
  | [] => ([], [])
  | (k, v) :: rest =>
      let acc := classifyUpdateFields isCompany rest
      if excluded_update_keys.contains k then acc
      else
        let fv := if isCompany then format_company_value v else format_value v
        let k' := if isCompany then "enriched_" ++ k else k
        let order := if isCompany then get_company_column_order else get_column_order
        match order.lookup k' with
        | some p => ((k', p, fv) :: acc.1, acc.2)
        | none => (acc.1, (k', fv) :: acc.2)

/-- The per-record field preparation of `update_google_sheet`
(lines 414-438): skip the excluded keys, format each value, prefix company
keys with `enriched_`, sort the priority-table fields by priority and
append the other fields in encounter order. The result is the sequence of
`(field name, formatted value)` cell writes for the matched row. -/
def buildUpdateFields (data : List (String × Value)) (isCompany : Bool) :
    List (String × String) :=
  let step := classifyUpdateFields isCompany data
  (sortByPriority step.1).map (fun x => (x.1, x.2.2)) ++ step.2

/-- The record used to exercise the profile merge: linkage keys, a full
name and one ordinary field. -/
def sampleProfileRecord : List (String × Value) :=
  [("input_url", .str "https://www.linkedin.com/in/jane"), ("url", .str "u"),
   ("name", .str "Jane Q. Public"),
   ("similar_profiles", .list []), ("people_also_viewed", .list []),
   ("position", .str "CEO")]

/-! ### The company row matcher (C6) -/

/-- One stripped segment of a `current_company` cell checked against the
normalised target URL (`update_google_sheet` lines 376-389): a `link:`
segment is stripped of the prefix, stripped and normalised the same way as
the input; a `company_id:` segment is reconstructed into
`https://www.linkedin.com/company/{id}`. -/
def companyPartMatches (target part : String) : Bool :=
  let p := pyStripStr part
  if pyStartsWith p "link:" then
    normalize_company_url (pyStripStr (pyReplace p "link:" "")) == target
  else if pyStartsWith p "company_id:" then
    ("https://www.linkedin.com/company/" ++ pyStripStr (pyReplace p "company_id:" ""))
      == target
  else false

/-- A `current_company` cell matches when some `|`-separated segment
matches. -/
def cellMatchesCompany (target cell : String) : Bool :=
  (splitOnChar '|' cell.toList).any fun part =>
    companyPartMatches target (String.mk part)

/-- The row scan of the company branch (lines 368-391): `companyValues` is
the whole `current_company` column including the header; rows are checked
from row 2 upward, empty cells skipped, and the first matching row index is
returned (`none` mirrors `row_index == -1`). -/
def findCompanyRowAux (target : String) : List String → Nat → Option Nat
  | [], _ => none
  | cell :: rest, i =>
      if cell == "" then findCompanyRowAux target rest (i + 1)
      else if cellMatchesCompany target cell then some i
      else findCompanyRowAux target rest (i + 1)

/-- `find the row by checking current_company column`, 1-based rows with
the header in row 1. -/
def findCompanyRow (target : String) (companyValues : List String) : Option Nat :=
  findCompanyRowAux target (companyValues.drop 1) 2

/-- The position (counting from `i`) of the first list entry satisfying
`p`. -/
def firstIdxWhere (p : String → Bool) : List String → Nat → Option Nat
  | [], _ => none
  | c :: rest, i => if p c then some i else firstIdxWhere p rest (i + 1)

/-- Refinement form following the spec's words: the first row (scanning
rows 2..) whose non-empty cell contains a matching segment wins. -/
def spec_firstMatchingRow (target : String) (companyValues : List String) :
    Option Nat :=
  firstIdxWhere (fun cell => !(cell == "") && cellMatchesCompany target cell)
    (companyValues.drop 1) 2

/-- `data.get('input', \x7b\x7d).get('url')` on a company record. -/
def recordInputUrl (data : List (String × Value)) : Option String :=
  match data.lookup "input" with
  | some (.dict d) =>
      match d.lookup "url" with
      | some (.str u) => some u
      | _ => none
  | _ => none

/-- The per-batch company merge (the `for data in snapshot_data` loop):
each record resolves its row via the matcher; records with a missing or
empty input URL, and records with no matching row, are skipped
(`continue`) without aborting the batch; each matched record contributes
its row index and prepared field writes. -/
def companyRowUpdates (snapshotData : List (List (String × Value)))
    (companyValues : List String) : List (Nat × List (String × String)) :=
  snapshotData.filterMap fun data =>
    match recordInputUrl data with
    | none => none
    | some u =>
        if u == "" then none
        else
          let target := normalize_company_url u
          match findCompanyRow target companyValues with
          | none => none
          | some i => some (i, buildUpdateFields data true)

/-! ### Column resolution and the lead-score column (C7) -/

/-- `headers.index(key) + 1` as an option: the 1-based column of a field
name. -/
def colIndexOf (headers : List String) (key : String) : Option Nat :=
  (firstIdxWhere (· == key) headers 0).map (· + 1)

/-- The find-or-create column step of `update_google_sheet`
(lines 443-451 and 457-464): an existing header keeps its 1-based index;
otherwise one column is added at the end, the new header cell is written,
and the in-memory header list is appended to. -/
def resolveColumn (headers : List String) (key : String) : Nat × List String :=
  match colIndexOf headers key with
  | some i => (i, headers)
  | none => (headers.length + 1, headers ++ [key])

/-- The lead-score column step of `update_lead_scores` (lines 865-881):
when `lead_score` is absent it is *inserted* as the second column; when it
is present elsewhere, a fresh column is inserted at position 2 and the old
one deleted (mirrored in the in-memory header list by `remove` +
`insert(1, ...)`). Returns the 1-based score column and the new header
list. -/
def ensureLeadScoreColumn (headers : List String) : Nat × List String :=
  if headers.contains "lead_score" then
    let c := (colIndexOf headers "lead_score").getD 1
    if c = 2 then (2, headers)
    else (2, List.insertIdx 1 "lead_score" (headers.erase "lead_score"))
  else (2, List.insertIdx 1 "lead_score" headers)

/-! ## Theorems -/

/-- C1 counterexample: starting from empty persisted sets (where
`updated ⊆ processed` holds), the moment the merge pass of a fresh
snapshot persists the `updated` set — before the `processed` save that
only happens afterwards — the invariant `updated ⊆ processed` is false. -/
theorem c1_counterexample :
    ¬ updatedSubProcessed (mergePersist ⟨[], []⟩ "snap1" true) := by
  decide

/-- C1 (amended): the persist order is the reverse of the claimed one: a
successful merge persists the id into `updated` first while `processed` is
untouched (second conjunct), so the inclusion fails at that intermediate
point; the inclusion `updated ⊆ processed` is nevertheless preserved
across the *complete* handling of a snapshot, whatever the merge
outcome. -/
theorem c1_persist_order :
    (∀ (s : SnapState) (j : String) (ok : Bool),
        updatedSubProcessed s → updatedSubProcessed (handleSnapshot s j ok)) ∧
    (∀ (s : SnapState) (j : String),
        (mergePersist s j true).updated = s.updated.insert j ∧
        (mergePersist s j true).processed = s.processed) := by
  constructor
  · intro s j ok h x hx
    have hx' : x ∈ (mergePersist s j ok).updated := hx
    have hmem : x = j ∨ x ∈ s.updated := by
      cases ok with
      | false => exact Or.inr hx'
      | true => exact List.mem_insert_iff.1 hx'
    have hproc : (handleSnapshot s j ok).processed = s.processed.insert j := by
      cases ok <;> rfl
    rw [hproc]
    rcases hmem with rfl | hmem'
    · exact List.mem_insert_self x s.processed
    · exact List.mem_insert_of_mem (h x hmem')
  · intro s j
    exact ⟨rfl, rfl⟩

/-- Witness for C1's amended theorem at a concrete state and id. -/
theorem c1_persist_order_witness :
    updatedSubProcessed ⟨["a"], ["a"]⟩ ∧
    updatedSubProcessed (handleSnapshot ⟨["a"], ["a"]⟩ "b" true) :=
  ⟨by decide, c1_persist_order.1 ⟨["a"], ["a"]⟩ "b" true (by decide)⟩

/-- C5 counterexample: with two consecutive quota errors before a success,
the whole merge call is attempted three times (two recursive retries), not
at most twice as "exactly one retry" requires. -/
theorem c5_counterexample :
    (update_sheet_retry [.quotaError, .quotaError, .success]).1 = 3 ∧
    ¬ (update_sheet_retry [.quotaError, .quotaError, .success]).1 ≤ 2 := by
  decide

/-- C5 (amended): each quota-exceeded failure waits 60 seconds and
recursively re-invokes the whole merge call (not per-record), so `n`
leading quota errors produce `n + 1` attempts and `60 * n` seconds of
waiting — unbounded in `n`, not a single retry; the first non-quota
outcome ends the recursion, a success marking the snapshot updated and any
other error returning without raising and without marking it. -/
theorem update_sheet_retry_quota (l : List AttemptOutcome) :
    update_sheet_retry (.quotaError :: l) =
      ((update_sheet_retry l).1 + 1, (update_sheet_retry l).2.1 + 60,
        (update_sheet_retry l).2.2) := by
  rcases h : update_sheet_retry l with ⟨n, w, u⟩
  simp [update_sheet_retry, h]

theorem c5_quota_retry :
    (∀ (n : Nat) (rest : List AttemptOutcome),
        update_sheet_retry (List.replicate n .quotaError ++ .success :: rest) =
          (n + 1, 60 * n, true)) ∧
    (∀ (n : Nat) (rest : List AttemptOutcome),
        update_sheet_retry (List.replicate n .quotaError ++ .otherError :: rest) =
          (n + 1, 60 * n, false)) := by
  constructor <;>
    (intro n rest
     induction n with
     | zero => rfl
     | succ m ih =>
         rw [List.replicate_succ, List.cons_append, update_sheet_retry_quota, ih]
         simp [Nat.mul_succ])

/-- C3 counterexample: a listing with a single `ready` job whose id is
already in `processed` (and with no `running` job) makes the loop
`continue` forever — the iteration yields `again` and no number of
iterations exits — while the claim requires the loop to exit exactly
then. -/
theorem c3_counterexample :
    allProcessed [⟨some "a", "ready"⟩] ["a"] = true ∧
    runningOf [⟨some "a", "ready"⟩] = [] ∧
    pollIteration [⟨some "a", "ready"⟩] (fun _ => true) ["a"] = .again ["a"] ∧
    pollLoop 100 [⟨some "a", "ready"⟩] (fun _ => true) ["a"] = none := by
  decide

/-- C3 (amended): when every listed job is already processed the loop
never exits, whatever the download outcomes and however many iterations
run; and the loop exits only on an iteration in which the new (not yet
processed) snapshots contain no `running` job and at least one `ready`
one. -/
theorem c3_poll_exit_condition :
    (∀ (snaps : List JobRecord) (processed : List String) (dlOk : String → Bool),
        allProcessed snaps processed = true →
        ∀ fuel, pollLoop fuel snaps dlOk processed = none) ∧
    (∀ (snaps : List JobRecord) (dlOk : String → Bool) (processed p : List String),
        pollIteration snaps dlOk processed = .halt p →
        runningOf (newSnapshots snaps processed) = [] ∧
        readyOf (newSnapshots snaps processed) ≠ []) := by
  constructor
  · intro snaps processed dlOk hall
    have hnew : newSnapshots snaps processed = [] := by
      unfold newSnapshots
      rw [List.filter_eq_nil_iff]
      intro s hs
      have := (List.all_eq_true.1 hall) s hs
      cases hid : s.id with
      | none => rw [hid] at this; simp at this
      | some i => simp_all
    have hit : pollIteration snaps dlOk processed = .again processed := by
      by_cases hs : snaps.isEmpty
      · simp [pollIteration, hs]
      · simp [pollIteration, hs, hnew]
    intro fuel
    induction fuel with
    | zero => rfl
    | succ m ih => simp [pollLoop, hit, ih]
  · intro snaps dlOk processed p h
    unfold pollIteration at h
    by_cases h1 : snaps.isEmpty
    · simp [h1] at h
    · simp only [h1, if_false] at h
      by_cases h2 : (newSnapshots snaps processed).isEmpty
      · simp [h2] at h
      · simp only [h2, if_false] at h
        by_cases h3 : (readyOf (newSnapshots snaps processed)).isEmpty
        · simp [h3] at h
        · simp only [h3, if_false] at h
          by_cases h4 : (runningOf (newSnapshots snaps processed)).isEmpty
          · exact ⟨List.isEmpty_iff.1 h4, fun hr => by simp [hr] at h3⟩
          · simp [h4] at h

/-- Witness for C3's amended theorem: the forever-looping listing of the
counterexample, and a halting iteration with one unprocessed ready job. -/
theorem c3_poll_exit_condition_witness :
    pollLoop 3 [⟨some "a", "ready"⟩] (fun _ => true) ["a"] = none ∧
    (runningOf (newSnapshots [⟨some "b", "ready"⟩] []) = [] ∧
     readyOf (newSnapshots [⟨some "b", "ready"⟩] []) ≠ []) :=
  ⟨c3_poll_exit_condition.1 [⟨some "a", "ready"⟩] ["a"] (fun _ => true) (by decide) 3,
   c3_poll_exit_condition.2 [⟨some "b", "ready"⟩] (fun _ => true) [] ["b"] (by decide)⟩

/-- C2 counterexample: the entry point's stage sequence contains no
pending-updates pass at all — in particular none before the polling
stages — whether or not company links are found. -/
theorem c2_counterexample :
    PipelineStep.pendingUpdatesPass ∉ mainSteps true ∧
    PipelineStep.pendingUpdatesPass ∉ mainSteps false := by
  decide

/-- C2 (amended): `process_pending_updates` implements the claimed
selection — every `.json` file of either snapshot directory whose id is in
the profile `processed` set and not in the profile `updated` set, re-read
from the local file — but no entry-point stage ever invokes it, so no
re-merge happens on resume before polling. -/
theorem c2_pending_pass_dead :
    (∀ b, PipelineStep.pendingUpdatesPass ∉ mainSteps b) ∧
    (∀ (profileFiles companyFiles processed updated : List String) (p : String),
        p ∈ pendingSnapshots profileFiles companyFiles processed updated ↔
          (∃ f, (f ∈ profileFiles ∧
              (pyEndsWith f ".json" && processed.contains (snapshotIdOfFile f) &&
                !updated.contains (snapshotIdOfFile f)) = true) ∧
              "profile_snapshots/" ++ f = p) ∨
          (∃ f, (f ∈ companyFiles ∧
              (pyEndsWith f ".json" && processed.contains (snapshotIdOfFile f) &&
                !updated.contains (snapshotIdOfFile f)) = true) ∧
              "company_snapshots/" ++ f = p)) := by
  constructor
  · intro b; cases b <;> decide
  · intro pf cf pr up p
    simp [pendingSnapshots, List.mem_append, List.mem_map, List.mem_filter]

/-- C9: the value formatter is idempotent on its own output: re-formatting
the string produced by `format_value` yields the same string, because
formatting a plain string returns that string unchanged. -/
theorem c9_format_value_idempotent :
    (∀ v : Value, format_value (Value.str (format_value v)) = format_value v) ∧
    (∀ s : String, format_value (Value.str s) = s) :=
  ⟨fun _ => rfl, fun _ => rfl⟩

theorem score_lead_reply (row : List (String × String)) (t : String) :
    score_lead row (.reply t) =
      (match pyFloatParse (pyStripStr t) with
       | some lit => pyMin (pyMax (pyFloatVal lit) (.finite 0)) (.finite 10)
       | none => .finite 0) := rfl

theorem pyMax_finite (a b : ℚ) :
    pyMax (.finite a) (.finite b) = .finite (max a b) := by
  by_cases h : a < b
  · have hg : pyGt (PyFloat.finite b) (PyFloat.finite a) = true := by
      simp [pyGt, h]
    rw [pyMax, hg]
    simp [max_eq_right h.le]
  · have hg : pyGt (PyFloat.finite b) (PyFloat.finite a) = false := by
      simp [pyGt, h]
    rw [pyMax, hg]
    simp [max_eq_left (not_lt.1 h)]

theorem pyMin_finite (a b : ℚ) :
    pyMin (.finite a) (.finite b) = .finite (min a b) := by
  by_cases h : b < a
  · have hg : pyGt (PyFloat.finite a) (PyFloat.finite b) = true := by
      simp [pyGt, h]
    rw [pyMin, hg]
    simp [min_eq_right h.le]
  · have hg : pyGt (PyFloat.finite a) (PyFloat.finite b) = false := by
      simp [pyGt, h]
    rw [pyMin, hg]
    simp [min_eq_left (not_lt.1 h)]

/-- C10 counterexample: the completion reply `"nan"` parses as a Python
float, `min`/`max` propagate it, and `score_lead` returns NaN — not a
numeric value in `[0, 10]`. -/
theorem c10_counterexample :
    score_lead [] (.reply "nan") = PyFloat.nan ∧
    ¬ isFiniteIn0to10 (score_lead [] (.reply "nan")) := by
  decide

/-- C10 (amended): `score_lead` is total (never raises) and, for every row
mapping and every service behaviour, returns either a finite value in
`[0, 10]` or NaN; the NaN escape happens exactly when the reply parses as
a float NaN (every exception, parse failure, finite or infinite parse
yields a finite clamped value). -/
theorem c10_score_lead_range :
    (∀ (row : List (String × String)) (svc : ServiceOutcome),
        isFiniteIn0to10 (score_lead row svc) ∨ score_lead row svc = PyFloat.nan) ∧
    (∀ (row : List (String × String)) (t : String),
        score_lead row (.reply t) = PyFloat.nan ↔
          pyFloatParse (pyStripStr t) = some FloatLit.nan) := by
  constructor
  · intro row svc
    cases svc with
    | raised m => exact Or.inl ⟨le_refl 0, by norm_num⟩
    | reply t =>
        rw [score_lead_reply]
        cases hp : pyFloatParse (pyStripStr t) with
        | none => exact Or.inl ⟨le_refl 0, by norm_num⟩
        | some lit =>
            cases lit with
            | nan => exact Or.inr rfl
            | inf neg =>
                cases neg with
                | false => exact Or.inl ⟨by norm_num, le_refl 10⟩
                | true =>
                    left
                    show isFiniteIn0to10 (pyMin (.finite 0) (.finite 10))
                    rw [pyMin_finite, min_eq_left (by norm_num : (0 : ℚ) ≤ 10)]
                    exact ⟨le_refl 0, by norm_num⟩
            | num p =>
                left
                show isFiniteIn0to10
                  (pyMin (pyMax (.finite (ratOfParsed p)) (.finite 0)) (.finite 10))
                rw [pyMax_finite, pyMin_finite]
                exact ⟨le_min (le_max_right _ 0) (by norm_num), min_le_right _ 10⟩
  · intro row t
    rw [score_lead_reply]
    cases hp : pyFloatParse (pyStripStr t) with
    | none => decide
    | some lit =>
        cases lit with
        | nan => decide
        | inf neg => cases neg <;> decide
        | num p =>
            show pyMin (pyMax (pyFloatVal (FloatLit.num p)) (PyFloat.finite 0))
                (PyFloat.finite 10) = PyFloat.nan ↔
              some (FloatLit.num p) = some FloatLit.nan
            rw [show pyMin (pyMax (pyFloatVal (FloatLit.num p)) (PyFloat.finite 0))
                  (PyFloat.finite 10)
                = pyMin (pyMax (PyFloat.finite (ratOfParsed p)) (PyFloat.finite 0))
                  (PyFloat.finite 10) from rfl,
              pyMax_finite, pyMin_finite]
            simp

/-- C8 counterexample: the reply `"NaN"` does parse as a number for
Python's `float()`, yet the scorer's result is NaN, not a value clamped
into `[0, 10]`. -/
theorem c8_counterexample :
    pyFloatParse (pyStripStr "NaN") = some FloatLit.nan ∧
    score_lead [] (.reply "NaN") = PyFloat.nan ∧
    ¬ isFiniteIn0to10 (score_lead [] (.reply "NaN")) := by
  decide

/-- C8 (amended): the scorer strips the reply and parses it with Python
`float()`; a finite parse is clamped via `min(max(score, 0), 10)` (so
`"12"` and the underscore literal `"1_0"` yield 10), an infinite parse
clamps to the nearer bound (`"inf"` yields 10), and an unparseable reply
such as `"abc"` yields 0 without raising — but a reply parsing as NaN
(e.g. `"nan"`) propagates through `min`/`max` unclamped and the result is
NaN, not a value of `[0, 10]`. -/
theorem c8_score_clamp_behavior :
    (∀ row, score_lead row (.reply "12") = .finite 10) ∧
    (∀ row, score_lead row (.reply "abc") = .finite 0) ∧
    (∀ row, score_lead row (.reply "inf") = .finite 10) ∧
    (∀ row, score_lead row (.reply "1_0") = .finite 10) ∧
    (∀ row, score_lead row (.reply "nan") = PyFloat.nan) ∧
    (∀ row t p, pyFloatParse (pyStripStr t) = some (.num p) →
        score_lead row (.reply t) = .finite (min (max (ratOfParsed p) 0) 10)) ∧
    (∀ row t, pyFloatParse (pyStripStr t) = none →
        score_lead row (.reply t) = .finite 0) := by
  refine ⟨fun row => ?_, fun row => ?_, fun row => ?_, fun row => ?_, fun row => ?_,
    fun row t p h => ?_, fun row t h => ?_⟩
  · rw [score_lead_reply,
      show pyFloatParse (pyStripStr "12") = some (.num ⟨false, 12, 0, 0, false, 0⟩)
        from by decide]
    show pyMin (pyMax (.finite (ratOfParsed ⟨false, 12, 0, 0, false, 0⟩)) (.finite 0))
      (.finite 10) = .finite 10
    rw [pyMax_finite, pyMin_finite,
      show ratOfParsed ⟨false, 12, 0, 0, false, 0⟩ = 12 from by simp [ratOfParsed],
      max_eq_left (by norm_num : (0 : ℚ) ≤ 12),
      min_eq_right (by norm_num : (10 : ℚ) ≤ 12)]
  · rw [score_lead_reply,
      show pyFloatParse (pyStripStr "abc") = none from by decide]
  · rw [score_lead_reply,
      show pyFloatParse (pyStripStr "inf") = some (.inf false) from by decide]
    rfl
  · rw [score_lead_reply,
      show pyFloatParse (pyStripStr "1_0") = some (.num ⟨false, 10, 0, 0, false, 0⟩)
        from by decide]
    show pyMin (pyMax (.finite (ratOfParsed ⟨false, 10, 0, 0, false, 0⟩)) (.finite 0))
      (.finite 10) = .finite 10
    rw [pyMax_finite, pyMin_finite,
      show ratOfParsed ⟨false, 10, 0, 0, false, 0⟩ = 10 from by simp [ratOfParsed],
      max_eq_left (by norm_num : (0 : ℚ) ≤ 10),
      min_eq_right (by norm_num : (10 : ℚ) ≤ 10)]
  · rw [score_lead_reply,
      show pyFloatParse (pyStripStr "nan") = some .nan from by decide]
    rfl
  · rw [score_lead_reply, h]
    show pyMin (pyMax (.finite (ratOfParsed p)) (.finite 0)) (.finite 10) =
      .finite (min (max (ratOfParsed p) 0) 10)
    rw [pyMax_finite, pyMin_finite]
  · rw [score_lead_reply, h]

/-- Witness for C8's amended theorem: the general finite-parse and
parse-failure clauses applied at the concrete replies `" 7.5 "` and
`"xyz"`. -/
theorem c8_score_clamp_behavior_witness :
    score_lead [] (.reply " 7.5 ") =
      .finite (min (max (ratOfParsed ⟨false, 7, 5, 1, false, 0⟩) 0) 10) ∧
    score_lead [] (.reply "xyz") = .finite 0 :=
  ⟨c8_score_clamp_behavior.2.2.2.2.2.1 [] " 7.5 " ⟨false, 7, 5, 1, false, 0⟩
      (by decide),
   c8_score_clamp_behavior.2.2.2.2.2.2 [] "xyz" (by decide)⟩

theorem mem_insertByPriority (a x : String × Nat × String)
    (l : List (String × Nat × String)) :
    a ∈ insertByPriority x l ↔ a = x ∨ a ∈ l := by
  induction l with
  | nil => simp [insertByPriority]
  | cons y ys ih =>
      simp only [insertByPriority]
      split <;> simp only [List.mem_cons, ih] <;> tauto

theorem mem_sortByPriority (a : String × Nat × String)
    (l : List (String × Nat × String)) :
    a ∈ sortByPriority l ↔ a ∈ l := by
  induction l with
  | nil => simp [sortByPriority]
  | cons x xs ih =>
      simp only [sortByPriority, mem_insertByPriority, List.mem_cons, ih]

theorem mem_classifyProfile (data : List (String × Value)) (k fv : String) :
    ((∃ p, (k, p, fv) ∈ (classifyUpdateFields false data).1) ∨
        (k, fv) ∈ (classifyUpdateFields false data).2) ↔
      ∃ v, (k, v) ∈ data ∧ excluded_update_keys.contains k = false ∧
        fv = format_value v := by
  induction data with
  | nil => simp [classifyUpdateFields]
  | cons kv rest ih =>
      obtain ⟨k0, v0⟩ := kv
      have hbody : classifyUpdateFields false ((k0, v0) :: rest) =
          (if excluded_update_keys.contains k0 then classifyUpdateFields false rest
           else
             match get_column_order.lookup k0 with
             | some p =>
                 ((k0, p, format_value v0) :: (classifyUpdateFields false rest).1,
                   (classifyUpdateFields false rest).2)
             | none =>
                 ((classifyUpdateFields false rest).1,
                   (k0, format_value v0) :: (classifyUpdateFields false rest).2)) := rfl
      by_cases hex : excluded_update_keys.contains k0 = true
      · have hstep : classifyUpdateFields false ((k0, v0) :: rest) =
            classifyUpdateFields false rest := by
          rw [hbody, if_pos hex]
        rw [hstep, ih]
        constructor
        · rintro ⟨v, hv, hk, hfv⟩
          exact ⟨v, List.mem_cons_of_mem _ hv, hk, hfv⟩
        · rintro ⟨v, hv, hk, hfv⟩
          rcases List.mem_cons.1 hv with heq | hv'
          · injection heq with h1 h2
            rw [h1] at hk
            rw [hk] at hex
            exact Bool.noConfusion hex
          · exact ⟨v, hv', hk, hfv⟩
      · have hex' : excluded_update_keys.contains k0 = false := by
          cases h : excluded_update_keys.contains k0
          · rfl
          · exact absurd h hex
        cases hl : get_column_order.lookup k0 with
        | some p =>
            have hstep : classifyUpdateFields false ((k0, v0) :: rest) =
                ((k0, p, format_value v0) :: (classifyUpdateFields false rest).1,
                  (classifyUpdateFields false rest).2) := by
              rw [hbody, if_neg hex, hl]
            rw [hstep]
            simp only [List.mem_cons]
            constructor
            · rintro (⟨p', heq | hmem⟩ | h2)
              · injection heq with h1 h23
                injection h23 with h2' h3
                subst h1
                subst h3
                exact ⟨v0, Or.inl rfl, hex', rfl⟩
              · obtain ⟨v, hv, hk, hfv⟩ := ih.1 (Or.inl ⟨p', hmem⟩)
                exact ⟨v, Or.inr hv, hk, hfv⟩
              · obtain ⟨v, hv, hk, hfv⟩ := ih.1 (Or.inr h2)
                exact ⟨v, Or.inr hv, hk, hfv⟩
            · rintro ⟨v, heq | hv', hk, hfv⟩
              · injection heq with h1 h2
                subst h1
                subst h2
                exact Or.inl ⟨p, Or.inl (by rw [hfv])⟩
              · rcases ih.2 ⟨v, hv', hk, hfv⟩ with ⟨p', hp'⟩ | h2
                · exact Or.inl ⟨p', Or.inr hp'⟩
                · exact Or.inr h2
        | none =>
            have hstep : classifyUpdateFields false ((k0, v0) :: rest) =
                ((classifyUpdateFields false rest).1,
                  (k0, format_value v0) :: (classifyUpdateFields false rest).2) := by
              rw [hbody, if_neg hex, hl]
            rw [hstep]
            simp only [List.mem_cons]
            constructor
            · rintro (⟨p', hmem⟩ | heq | h2)
              · obtain ⟨v, hv, hk, hfv⟩ := ih.1 (Or.inl ⟨p', hmem⟩)
                exact ⟨v, Or.inr hv, hk, hfv⟩
              · injection heq with h1 h2
                subst h1
                subst h2
                exact ⟨v0, Or.inl rfl, hex', rfl⟩
              · obtain ⟨v, hv, hk, hfv⟩ := ih.1 (Or.inr h2)
                exact ⟨v, Or.inr hv, hk, hfv⟩
            · rintro ⟨v, heq | hv', hk, hfv⟩
              · injection heq with h1 h2
                subst h1
                subst h2
                exact Or.inr (Or.inl (by rw [hfv]))
              · rcases ih.2 ⟨v, hv', hk, hfv⟩ with ⟨p', hp'⟩ | h2
                · exact Or.inl ⟨p', hp'⟩
                · exact Or.inr (Or.inr h2)

theorem mem_buildUpdateFields (data : List (String × Value)) (k fv : String) :
    (k, fv) ∈ buildUpdateFields data false ↔
      ((∃ p, (k, p, fv) ∈ (classifyUpdateFields false data).1) ∨
        (k, fv) ∈ (classifyUpdateFields false data).2) := by
  unfold buildUpdateFields
  simp only [List.mem_append, List.mem_map]
  constructor
  · rintro (⟨⟨a, p, b⟩, hx, hproj⟩ | h2)
    · injection hproj with h1 h2'
      subst h1
      subst h2'
      exact Or.inl ⟨p, (mem_sortByPriority _ _).1 hx⟩
    · exact Or.inr h2
  · rintro (⟨p, hp⟩ | h2)
    · exact Or.inl ⟨(k, p, fv), (mem_sortByPriority _ _).2 hp, rfl⟩
    · exact Or.inr h2

/-- C4 counterexample: on a profile record carrying `input_url`, `url`,
`name`, `similar_profiles`, `people_also_viewed` and `position`, the
prepared field list keeps `input_url` (it is not excluded — the excluded
key is `input`), writes `name` unchanged, and synthesizes no
`first_name`/`last_name` fields. -/
theorem c4_counterexample :
    buildUpdateFields sampleProfileRecord false =
      [("name", "Jane Q. Public"), ("position", "CEO"),
       ("input_url", "https://www.linkedin.com/in/jane")] ∧
    "first_name" ∉ (buildUpdateFields sampleProfileRecord false).map Prod.fst ∧
    "last_name" ∉ (buildUpdateFields sampleProfileRecord false).map Prod.fst := by
  decide

/-- C4 (amended): the profile merge writes exactly the record's fields
whose keys are outside `['input', 'url', 'similar_profiles',
'people_also_viewed']` (so `input_url` IS written), each with its formatted
value and under its own name — in particular `name` is written unchanged
and no `first_name`/`last_name` fields are synthesized. -/
theorem c4_merge_field_list :
    (buildUpdateFields sampleProfileRecord false =
      [("name", "Jane Q. Public"), ("position", "CEO"),
       ("input_url", "https://www.linkedin.com/in/jane")]) ∧
    (∀ (data : List (String × Value)) (k fv : String),
        (k, fv) ∈ buildUpdateFields data false ↔
          ∃ v, (k, v) ∈ data ∧ excluded_update_keys.contains k = false ∧
            fv = format_value v) := by
  refine ⟨by decide, fun data k fv => ?_⟩
  rw [mem_buildUpdateFields, mem_classifyProfile]

theorem findCompanyRowAux_eq_firstIdx (target : String) :
    ∀ (l : List String) (i : Nat),
      findCompanyRowAux target l i =
        firstIdxWhere (fun cell => !(cell == "") && cellMatchesCompany target cell)
          l i := by
  intro l
  induction l with
  | nil => intro i; rfl
  | cons cell rest ih =>
      intro i
      simp only [findCompanyRowAux, firstIdxWhere]
      rcases Bool.eq_false_or_eq_true (cell == "") with hc | hc <;>
        rcases Bool.eq_false_or_eq_true (cellMatchesCompany target cell) with hm | hm <;>
          simp [hc, hm, ih]

/-- C6: the company matcher normalizes (query string and trailing slashes
stripped), splits cells on `|`, matches stripped `link:`/`company_id:`
segments, returns the first matching row (equivalent to the spec's
first-match scan), succeeds on the `company_id: 123` reconstruction
example, and a record with no matching row is dropped without aborting the
rest of the batch. -/
theorem c6_company_row_matching :
    (∀ (target : String) (values : List String),
        findCompanyRow target values = spec_firstMatchingRow target values) ∧
    (normalize_company_url "https://www.linkedin.com/company/123/?trk=test" =
      "https://www.linkedin.com/company/123") ∧
    (findCompanyRow "https://www.linkedin.com/company/123"
        ["current_company", "company_id: 123"] = some 2) ∧
    (∀ (data : List (String × Value)) (u : String)
        (rest : List (List (String × Value))) (values : List String),
        recordInputUrl data = some u → (u == "") = false →
        findCompanyRow (normalize_company_url u) values = none →
        companyRowUpdates (data :: rest) values = companyRowUpdates rest values) := by
  refine ⟨fun target values => ?_, by decide, by decide,
    fun data u rest values hu hne hf => ?_⟩
  · unfold findCompanyRow spec_firstMatchingRow
    exact findCompanyRowAux_eq_firstIdx target (values.drop 1) 2
  · unfold companyRowUpdates
    rw [List.filterMap_cons]
    simp [hu, hne, hf]

/-- Witness for C6: the first-match equivalence and the skip-on-no-match
clause at a concrete one-record batch whose URL matches no row. -/
theorem c6_company_row_matching_witness :
    findCompanyRow "https://x" ["current_company", "link: https://x"] =
      spec_firstMatchingRow "https://x" ["current_company", "link: https://x"] ∧
    companyRowUpdates [[("input", .dict [("url", .str "https://nomatch")])]]
        ["current_company"] =
      companyRowUpdates [] ["current_company"] :=
  ⟨c6_company_row_matching.1 "https://x" ["current_company", "link: https://x"],
   c6_company_row_matching.2.2.2 [("input", .dict [("url", .str "https://nomatch")])]
     "https://nomatch" [] ["current_company"] (by decide) (by decide) (by decide)⟩

theorem firstIdxWhere_append_some (p : String → Bool) :
    ∀ (l t : List String) (i j : Nat),
      firstIdxWhere p l i = some j → firstIdxWhere p (l ++ t) i = some j := by
  intro l
  induction l with
  | nil => intro t i j h; exact absurd h (by simp [firstIdxWhere])
  | cons c rest ih =>
      intro t i j h
      simp only [firstIdxWhere, List.cons_append] at h ⊢
      by_cases hc : p c = true
      · rw [if_pos hc] at h ⊢
        exact h
      · rw [if_neg hc] at h ⊢
        exact ih t (i + 1) j h

theorem firstIdxWhere_append_none (p : String → Bool) :
    ∀ (l t : List String) (i : Nat),
      firstIdxWhere p l i = none →
      firstIdxWhere p (l ++ t) i = firstIdxWhere p t (i + l.length) := by
  intro l
  induction l with
  | nil => intro t i h; simp [firstIdxWhere]
  | cons c rest ih =>
      intro t i h
      simp only [firstIdxWhere, List.cons_append] at h ⊢
      by_cases hc : p c = true
      · rw [if_pos hc] at h
        exact absurd h (by simp)
      · rw [if_neg hc] at h
        rw [if_neg hc, List.length_cons,
          show i + (rest.length + 1) = i + 1 + rest.length from by omega]
        exact ih t (i + 1) h

theorem firstIdxWhere_eq_none (p : String → Bool) :
    ∀ (l : List String) (i : Nat), (∀ x ∈ l, p x = false) →
      firstIdxWhere p l i = none := by
  intro l
  induction l with
  | nil => intro i _; rfl
  | cons c rest ih =>
      intro i hall
      simp only [firstIdxWhere]
      rw [if_neg (by simp [hall c (List.mem_cons_self c rest)])]
      exact ih (i + 1) fun x hx => hall x (List.mem_cons_of_mem c hx)

/-- C7 counterexample: within one run, the lead-score step of
`update_lead_scores` inserts a fresh `lead_score` column at position 2
(not appended after all known columns), displacing the existing `about`
column, whose resolved index changes from 2 to 3. -/
theorem c7_counterexample :
    colIndexOf ["url", "about"] "about" = some 2 ∧
    ensureLeadScoreColumn ["url", "about"] = (2, ["url", "lead_score", "about"]) ∧
    colIndexOf ["url", "lead_score", "about"] "about" = some 3 ∧
    "lead_score" ∉ ["url", "about"] ∧
    (ensureLeadScoreColumn ["url", "about"]).1 ≠ (["url", "about"] : List String).length + 1 := by
  decide

/-- C7 (amended): the merge-time column resolution of
`update_google_sheet` does satisfy the claim — resolving a field twice
gives the same index and headers, an unknown field is appended after all
known columns, and resolving any field never changes an existing field's
column — but `update_lead_scores` breaks it for the run by *inserting* the
`lead_score` column at position 2, shifting the columns to its right. -/
theorem c7_column_resolution :
    (∀ (h : List String) (k : String),
        resolveColumn (resolveColumn h k).2 k = resolveColumn h k) ∧
    (∀ (h : List String) (k : String), k ∉ h →
        resolveColumn h k = (h.length + 1, h ++ [k])) ∧
    (∀ (h : List String) (k k' : String) (i : Nat),
        colIndexOf h k' = some i →
        colIndexOf (resolveColumn h k).2 k' = some i) := by
  refine ⟨fun h k => ?_, fun h k hk => ?_, fun h k k' i hi => ?_⟩
  · cases hc : colIndexOf h k with
    | some i => simp [resolveColumn, hc]
    | none =>
        have hc' : firstIdxWhere (· == k) h 0 = none := by
          cases hfw : firstIdxWhere (· == k) h 0 with
          | none => rfl
          | some j => rw [colIndexOf, hfw] at hc; simp at hc
        have h2 : colIndexOf (h ++ [k]) k = some (h.length + 1) := by
          rw [colIndexOf, firstIdxWhere_append_none _ h [k] 0 hc']
          simp [firstIdxWhere]
        simp [resolveColumn, hc, h2]
  · have hnone : colIndexOf h k = none := by
      rw [colIndexOf, firstIdxWhere_eq_none (· == k) h 0 ?_]
      · rfl
      · intro x hx
        cases hbe : x == k
        · exact hbe
        · exact absurd (eq_of_beq hbe ▸ hx) hk
    simp [resolveColumn, hnone]
  · cases hc : colIndexOf h k with
    | some j =>
        have : (resolveColumn h k).2 = h := by simp [resolveColumn, hc]
        rw [this]
        exact hi
    | none =>
        have h2 : (resolveColumn h k).2 = h ++ [k] := by simp [resolveColumn, hc]
        rw [h2]
        obtain ⟨j, hj, hij⟩ : ∃ j, firstIdxWhere (· == k') h 0 = some j ∧ i = j + 1 := by
          cases hfw : firstIdxWhere (· == k') h 0 with
          | none => rw [colIndexOf, hfw] at hi; simp at hi
          | some j =>
              rw [colIndexOf, hfw] at hi
              simp at hi
              exact ⟨j, rfl, hi.symm⟩
        rw [colIndexOf, firstIdxWhere_append_some _ h [k] 0 j hj, hij]
        rfl

/-- Witness for C7's amended theorem: a fresh field appended at the end,
and an existing field's column surviving another field's resolution. -/
theorem c7_column_resolution_witness :
    resolveColumn ["url"] "name" = (2, ["url", "name"]) ∧
    colIndexOf (resolveColumn ["url", "name"] "position").2 "name" = some 2 :=
  ⟨c7_column_resolution.2.1 ["url"] "name" (by decide),
   c7_column_resolution.2.2 ["url", "name"] "position" "name" 2 (by decide)⟩

end GSEnrich
